import Mathlib

/-!
Shallow embedding of `src/rockauto_s3.py`: a batch job that reads part
numbers from a warehouse, scrapes a price for each from a retail site,
and writes four CSV files to object storage.  External effects (the HTTP
GET, the warehouse connection, the S3 puts) are reified as explicit
oracle parameters and write traces.
-/

namespace RockAuto

/-! ### The decimal regex

The source applies `re.search(r"\d+(\.\d+)?", text)` in two places
(`fetch_price`, line 88, and the cleaning loop, line 138).  For this
pattern Python's leftmost-greedy semantics reduce to: find the leftmost
digit, take the maximal digit run there, then, if a dot followed by at
least one digit comes next, also take the dot and the maximal digit run
after it.  `matchDecimalAt` is the anchored match, `reSearchDecimalAux`
the search over positions. -/

/-- The optional `(\.\d+)?` part, matched greedily against the input
left after the integer digits: a dot and the maximal nonempty digit run
after it, or nothing. -/
def decTail (rest : List Char) : List Char :=
  match rest with
  | '.' :: r2 =>
    (match r2.takeWhile (fun x => x.isDigit) with
     | [] => []
     | f :: fs => '.' :: f :: fs)
  | _ => []

/-- Anchored match of `\d+(\.\d+)?` at the head of `cs`:
`some matched` when the head is a digit, `none` otherwise.
Lemma `matchDecimalAt_cons_digit` below restates the digit case. -/
def matchDecimalAt (cs : List Char) : Option (List Char) :=
  match cs with
  | [] => none
  | c :: _ =>
    if c.isDigit then
      some (cs.takeWhile (fun x => x.isDigit) ++
        decTail (cs.dropWhile (fun x => x.isDigit)))
    else none

/-- Leftmost search of `\d+(\.\d+)?`: try the anchored match at each
position from the left.  Since the anchored match succeeds exactly when
the position starts with a digit, this skips to the first digit. -/
def reSearchDecimalAux : List Char → Option (List Char)
  | [] => none
  | c :: rest =>
    if c.isDigit then matchDecimalAt (c :: rest) else reSearchDecimalAux rest

/-- `re.search(r"\d+(\.\d+)?", s)`, returning `m.group()` on success. -/
def reSearchDecimal (s : String) : Option String :=
  (reSearchDecimalAux s.data).map (fun cs => String.mk cs)

/-- `s` is in full a match of `\d+(\.\d+)?`: digits, then optionally a
dot and more digits. -/
def decFullMatch (s : String) : Bool :=
  matchDecimalAt s.data == some s.data

/-- Shape of any string matched by `\d+(\.\d+)?`: a nonempty digit run,
optionally followed by a dot and a nonempty digit run. -/
def DecShape (m : List Char) : Prop :=
  (m ≠ [] ∧ ∀ x ∈ m, x.isDigit = true) ∨
  (∃ ds fs, ds ≠ [] ∧ fs ≠ [] ∧ (∀ x ∈ ds, x.isDigit = true) ∧
    (∀ x ∈ fs, x.isDigit = true) ∧ m = ds ++ '.' :: fs)

/-! ### HTML documents and the BeautifulSoup fragment used by the source

`fetch_price` (lines 83-89) parses the response body and runs
`soup.select_one("span[id^='dprice'] span")`, i.e. the first `span`, in
document (preorder) order, that has a `span` ancestor whose `id`
attribute starts with `"dprice"`; then `el.get_text()` concatenates all
text in that element's subtree. -/

/-- A parsed HTML node: either text or an element with a tag name, an
optional `id` attribute and children. -/
inductive Node where
  | text (s : String)
  | element (tag : String) (idAttr : Option String) (children : List Node)
deriving Repr

/-- Character-level `startsWith`. -/
def listStartsWith : List Char → List Char → Bool
  | _, [] => true
  | [], _ :: _ => false
  | c :: cs, p :: ps => c == p && listStartsWith cs ps

/-- The `[id^='dprice']` attribute test. -/
def idStartsDprice : Option String → Bool
  | none => false
  | some s => listStartsWith s.data ('d' :: 'p' :: 'r' :: 'i' :: 'c' :: 'e' :: [])

mutual

/-- `select_one("span[id^='dprice'] span")` on a node, given whether an
ancestor already matched `span[id^='dprice']`: the first matching node in
preorder. -/
def selectNode (under : Bool) : Node → Option Node
  | .text _ => none
  | .element tag idA children =>
    if under && (tag == "span") then some (.element tag idA children)
    else selectList (under || ((tag == "span") && idStartsDprice idA)) children

/-- `selectNode` over a child list, left to right. -/
def selectList (under : Bool) : List Node → Option Node
  | [] => none
  | n :: rest =>
    match selectNode under n with
    | some r => some r
    | none => selectList under rest

end

mutual

/-- `el.get_text()`: all text in the subtree, concatenated. -/
def getText : Node → String
  | .text s => s
  | .element _ _ children => getTextList children

/-- `getText` over a child list, concatenated left to right. -/
def getTextList : List Node → String
  | [] => ""
  | n :: rest => getText n ++ getTextList rest

end

/-! ### The Price Fetcher (`fetch_price`, lines 74-89)

The HTTP GET is reified as an oracle `net : String → HttpResult` mapping
the request URL to what `requests.get` does for it.  `raised` covers a
network error or timeout (the call itself raises); `response status body`
is a completed response whose HTML body has been parsed into a `Node`.
`resp.raise_for_status()` raises exactly when `400 ≤ status`; the
`try/except` turns every raise into `return None`.  The `Option String`
result makes "no exception propagates to the caller" structural. -/

/-- Outcome of `requests.get(url, headers=HEADERS, timeout=10)`. -/
inductive HttpResult where
  | raised
  | response (status : Nat) (body : Node)

/-- `url = f"https://www.rockauto.com/en/partsearch/?partnum={vpn}"`. -/
def searchUrl (vpn : String) : String :=
  "https://www.rockauto.com/en/partsearch/?partnum=" ++ vpn

/-- `fetch_price(vpn)`: GET the search page and scrape the first price.
Returns `none` on any raise, when no element matches the selector, or
when the selected element's text has no decimal match. -/
def fetch_price (net : String → HttpResult) (vpn : String) : Option String :=
  match net (searchUrl vpn) with
  | .raised => none
  | .response status body =>
    if 400 ≤ status then none
    else
      match selectNode false body with
      | none => none
      | some el => reSearchDecimal (getText el)

/-! ### Data model -/

/-- One warehouse row: `{"vendor_part_number": ..., "part_number": ...}`. -/
structure PartRecord where
  vendor_part_number : String
  part_number : String
deriving DecidableEq, Repr

/-- One row of the price CSVs:
`{"SupplierPartNumber": ..., "Partnumber": ..., "Cost": ...}`. -/
structure PriceRow where
  SupplierPartNumber : String
  Partnumber : String
  Cost : String
deriving DecidableEq, Repr

/-- The three accumulators of `search_part_numbers_on_rockauto`
(lines 102-104). -/
structure AggState where
  raw_results : List PriceRow
  multi_errors : List String
  not_found : List String
deriving DecidableEq, Repr

/-- One `s3.put_object` of a CSV: the key, the header row, and the data
rows (each row already projected to the field order). -/
structure S3Put where
  key : String
  header : List String
  rows : List (List String)
deriving DecidableEq, Repr

/-- CSV keys (lines 13-16). -/
def multi_result_log_csv : String := "multi_result_error_log.csv"

def not_found_log_csv : String := "not_found_error_log.csv"

def output_csv_file : String := "part_numbers_with_prices.csv"

def cleaned_csv_file : String := "cleaned_part_numbers_with_prices.csv"

/-- `clear_csv_on_s3(key, headers)`: overwrite the key with only a
header row (lines 32-37). -/
def clear_csv_on_s3 (key : String) (headers : List String) : S3Put :=
  { key := key, header := headers, rows := [] }

/-- `clear_all_csvs()` (lines 40-45): the four header-only resets, in
source order. -/
def clear_all_csvs : List S3Put :=
  [clear_csv_on_s3 multi_result_log_csv ["VendorPartNumber", "Error"],
   clear_csv_on_s3 not_found_log_csv ["VendorPartNumber", "Error"],
   clear_csv_on_s3 output_csv_file ["SupplierPartNumber", "Partnumber", "Cost"],
   clear_csv_on_s3 cleaned_csv_file ["SupplierPartNumber", "Partnumber", "Cost"]]

/-- `save_csv_to_s3(rows, key, fieldnames)` (lines 92-98): one CSV
upload; `rows` are already projected to `fieldnames` order. -/
def save_csv_to_s3 (rows : List (List String)) (key : String)
    (fieldnames : List String) : S3Put :=
  { key := key, header := fieldnames, rows := rows }

/-- Projection of a `PriceRow` to the price-CSV field order. -/
def priceRowCells (r : PriceRow) : List String :=
  [r.SupplierPartNumber, r.Partnumber, r.Cost]

/-! ### The Warehouse Reader (`fetch_part_numbers`, lines 48-71)

The Snowflake calls are reified as an oracle saying which of the three
fallible steps raise (`connect`, `cursor.execute`, `cursor.fetchall`)
and which rows `fetchall` returns.  The embedding records, besides the
`Except` result, whether a connection was opened and whether it was
closed when the function exited: the source has no `try/finally`, so
`conn.close()` on line 66 runs only on the all-success path. -/

/-- Which warehouse steps succeed, and the rows a successful
`fetchall` returns. -/
structure WarehouseOracle where
  connectOk : Bool
  executeOk : Bool
  fetchOk : Bool
  rows : List (String × String)
deriving DecidableEq, Repr

/-- The observable outcome of `fetch_part_numbers`. -/
structure FetchOutcome where
  result : Except String (List PartRecord)
  connOpened : Bool
  connClosed : Bool
deriving Repr

/-- `fetch_part_numbers()`: connect, execute the fixed query, fetch all
rows, close cursor and connection, and build the record dicts.  A raise
at any step propagates immediately; no cleanup runs after it. -/
def fetch_part_numbers (o : WarehouseOracle) : FetchOutcome :=
  if o.connectOk = false then
    { result := Except.error "snowflake.connector.connect raised",
      connOpened := false, connClosed := false }
  else if o.executeOk = false then
    { result := Except.error "cursor.execute raised",
      connOpened := true, connClosed := false }
  else if o.fetchOk = false then
    { result := Except.error "cursor.fetchall raised",
      connOpened := true, connClosed := false }
  else
    { result := Except.ok (o.rows.map (fun rp =>
        { vendor_part_number := rp.1, part_number := rp.2 })),
      connOpened := true, connClosed := true }

/-! ### The Result Aggregator (`search_part_numbers_on_rockauto`,
lines 101-145)

The loop over `part_numbers` is embedded as `searchLoop`, threading the
three accumulators exactly as the source appends to them.  The
`time.sleep(1)` throttle has no observable effect here.  The trailing
writes (lines 121-145) become an ordered `S3Put` trace. -/

/-- One iteration's appends (lines 106-116), threaded through the list. -/
def searchLoop (net : String → HttpResult) :
    List PartRecord → AggState → AggState
  | [], st => st
  | rec :: rest, st =>
    match fetch_price net rec.vendor_part_number with
    | none =>
      searchLoop net rest
        { st with
          not_found := st.not_found ++ [rec.vendor_part_number],
          raw_results := st.raw_results ++
            [{ SupplierPartNumber := rec.vendor_part_number,
               Partnumber := rec.part_number, Cost := "Not Found" }] }
    | some price =>
      searchLoop net rest
        { st with
          raw_results := st.raw_results ++
            [{ SupplierPartNumber := rec.vendor_part_number,
               Partnumber := rec.part_number, Cost := price }] }

/-- The accumulators after the whole loop, from empty. -/
def searchState (net : String → HttpResult) (parts : List PartRecord) :
    AggState :=
  searchLoop net parts { raw_results := [], multi_errors := [], not_found := [] }

/-- The row the loop appends for one record: the price when the lookup
succeeds, the sentinel otherwise. -/
def rowOf (net : String → HttpResult) (rec : PartRecord) : PriceRow :=
  match fetch_price net rec.vendor_part_number with
  | none =>
    { SupplierPartNumber := rec.vendor_part_number,
      Partnumber := rec.part_number, Cost := "Not Found" }
  | some price =>
    { SupplierPartNumber := rec.vendor_part_number,
      Partnumber := rec.part_number, Cost := price }

/-- The cleaning loop (lines 136-144): re-extract the decimal pattern
from each `Cost`; keep the row, with the matched cost, only when the
search succeeds. -/
def cleanRows : List PriceRow → List PriceRow
  | [] => []
  | r :: rest =>
    match reSearchDecimal r.Cost with
    | some c => { r with Cost := c } :: cleanRows rest
    | none => cleanRows rest

/-- `search_part_numbers_on_rockauto(part_numbers)`: run the loop, then
perform the writes in source order — the two error logs only when their
collections are non-empty (Python truthiness, lines 121 and 127), the
raw and cleaned price CSVs unconditionally (lines 135 and 145). -/
def search_part_numbers_on_rockauto (net : String → HttpResult)
    (parts : List PartRecord) : List S3Put :=
  let st := searchState net parts
  (if st.multi_errors.isEmpty then [] else
    [save_csv_to_s3 (st.multi_errors.map (fun v => [v, "Multiple results found"]))
      multi_result_log_csv ["VendorPartNumber", "Error"]]) ++
  (if st.not_found.isEmpty then [] else
    [save_csv_to_s3 (st.not_found.map (fun v => [v, "No results found"]))
      not_found_log_csv ["VendorPartNumber", "Error"]]) ++
  [save_csv_to_s3 (st.raw_results.map priceRowCells) output_csv_file
    ["SupplierPartNumber", "Partnumber", "Cost"]] ++
  [save_csv_to_s3 ((cleanRows st.raw_results).map priceRowCells)
    cleaned_csv_file ["SupplierPartNumber", "Partnumber", "Cost"]]

/-! ### The Orchestrator (`lambda_handler`, lines 148-161) -/

/-- The success summary: `statusCode` and the JSON body fields. -/
structure LambdaResult where
  statusCode : Nat
  message : String
  searched_count : Nat
deriving DecidableEq, Repr

/-- `lambda_handler(event, context)`: reset the four CSVs, read the
warehouse, run the scrape-and-write pipeline, return the summary.  The
value is the run outcome paired with the ordered trace of S3 writes; a
warehouse raise aborts after the resets. -/
def lambda_handler (o : WarehouseOracle) (net : String → HttpResult) :
    Except String LambdaResult × List S3Put :=
  match (fetch_part_numbers o).result with
  | Except.error e => (Except.error e, clear_all_csvs)
  | Except.ok parts =>
    (Except.ok { statusCode := 200, message := "RockAuto scrape complete",
                 searched_count := parts.length },
     clear_all_csvs ++ search_part_numbers_on_rockauto net parts)

/-! ### Concrete fixtures used by witnesses -/

/-- The spec's example body:
`<span id="dprice123"><span>$42.95 each</span></span>` inside a page. -/
def doc42 : Node :=
  Node.element "html" none
    [Node.element "span" (some "dprice123")
      [Node.element "span" none [Node.text "$42.95 each"]]]

/-- A network that answers every GET with status 200 and `doc42`. -/
def net42 : String → HttpResult :=
  fun _ => HttpResult.response 200 doc42

/-- A network on which every GET raises. -/
def netRaise : String → HttpResult :=
  fun _ => HttpResult.raised

/-- A network that answers every GET with a 500 error page. -/
def net500 : String → HttpResult :=
  fun _ => HttpResult.response 500 (Node.text "Internal Server Error")

/-- A one-record part list. -/
def partsOne : List PartRecord :=
  [{ vendor_part_number := "A1", part_number := "P1" }]

/-- An all-success warehouse oracle with one row. -/
def whOk : WarehouseOracle :=
  { connectOk := true, executeOk := true, fetchOk := true,
    rows := [("A1", "P1")] }

/-- A warehouse oracle whose query (`cursor.execute`) raises. -/
def whExecFail : WarehouseOracle :=
  { connectOk := true, executeOk := false, fetchOk := true, rows := [] }

/-! ### Lemmas about the decimal regex -/

theorem matchDecimalAt_cons_digit {c : Char} {t : List Char}
    (hc : c.isDigit = true) :
    matchDecimalAt (c :: t) =
      some ((c :: t).takeWhile (fun x => x.isDigit) ++
        decTail ((c :: t).dropWhile (fun x => x.isDigit))) := by
  simp only [matchDecimalAt, hc, if_pos]

theorem takeWhile_all {p : Char → Bool} :
    ∀ {l : List Char}, (∀ x ∈ l, p x = true) → l.takeWhile p = l := by
  intro l h
  induction l with
  | nil => rfl
  | cons c t ih =>
    have hc : p c = true := h c (by simp)
    simp [List.takeWhile_cons, hc, ih (fun x hx => h x (by simp [hx]))]

theorem dropWhile_all {p : Char → Bool} :
    ∀ {l : List Char}, (∀ x ∈ l, p x = true) → l.dropWhile p = [] := by
  intro l h
  induction l with
  | nil => rfl
  | cons c t ih =>
    have hc : p c = true := h c (by simp)
    simp [List.dropWhile_cons, hc, ih (fun x hx => h x (by simp [hx]))]

theorem takeWhile_append_all {p : Char → Bool} {l₁ l₂ : List Char}
    (h : ∀ x ∈ l₁, p x = true) :
    (l₁ ++ l₂).takeWhile p = l₁ ++ l₂.takeWhile p := by
  induction l₁ with
  | nil => rfl
  | cons c t ih =>
    have hc : p c = true := h c (by simp)
    simp [List.takeWhile_cons, hc, ih (fun x hx => h x (by simp [hx]))]

theorem dropWhile_append_all {p : Char → Bool} {l₁ l₂ : List Char}
    (h : ∀ x ∈ l₁, p x = true) :
    (l₁ ++ l₂).dropWhile p = l₂.dropWhile p := by
  induction l₁ with
  | nil => rfl
  | cons c t ih =>
    have hc : p c = true := h c (by simp)
    simp [List.dropWhile_cons, hc, ih (fun x hx => h x (by simp [hx]))]

theorem mem_takeWhile_digit {l : List Char} {x : Char}
    (h : x ∈ l.takeWhile (fun c => c.isDigit)) : x.isDigit = true := by
  induction l with
  | nil => simp [List.takeWhile] at h
  | cons c t ih =>
    by_cases hc : c.isDigit = true
    · simp only [List.takeWhile_cons, hc, if_pos, List.mem_cons] at h
      rcases h with h | h
      · simpa [h] using hc
      · exact ih h
    · simp [List.takeWhile_cons, hc] at h

theorem decTail_shape (rest : List Char) :
    decTail rest = [] ∨
    ∃ f fs, (∀ x ∈ f :: fs, x.isDigit = true) ∧ decTail rest = '.' :: f :: fs := by
  unfold decTail
  split
  · split
    · exact Or.inl rfl
    · next f fs hfr =>
      refine Or.inr ⟨f, fs, ?_, rfl⟩
      intro x hx
      exact mem_takeWhile_digit (hfr ▸ hx)
  · exact Or.inl rfl

theorem matchDecimalAt_shape {cs m : List Char}
    (h : matchDecimalAt cs = some m) : DecShape m := by
  match cs with
  | [] => simp [matchDecimalAt] at h
  | c :: t =>
    by_cases hc : c.isDigit = true
    · simp only [matchDecimalAt, hc, if_pos, Option.some.injEq] at h
      have hds : (c :: t).takeWhile (fun x => x.isDigit) =
          c :: t.takeWhile (fun x => x.isDigit) := by
        simp [List.takeWhile_cons, hc]
      rcases decTail_shape ((c :: t).dropWhile (fun x => x.isDigit)) with h0 | hfs
      · left
        rw [h0, List.append_nil] at h
        constructor
        · rw [← h, hds]; simp
        · intro x hx; rw [← h] at hx; exact mem_takeWhile_digit hx
      · rcases hfs with ⟨f, fs, hdig, htl⟩
        right
        rw [htl] at h
        refine ⟨(c :: t).takeWhile (fun x => x.isDigit), f :: fs, ?_, by simp,
          ?_, hdig, h.symm⟩
        · rw [hds]; simp
        · intro x hx; exact mem_takeWhile_digit hx
    · simp [matchDecimalAt, hc] at h

theorem matchDecimalAt_self {m : List Char} (h : DecShape m) :
    matchDecimalAt m = some m := by
  rcases h with ⟨hne, hall⟩ | ⟨ds, fs, hdsne, hfsne, hdsd, hfsd, heq⟩
  · match m, hne with
    | c :: t, _ =>
      have hc : c.isDigit = true := hall c (by simp)
      simp only [matchDecimalAt, hc, if_pos]
      rw [takeWhile_all hall, dropWhile_all hall]
      simp [decTail]
  · match ds, hdsne with
    | d :: ds2, _ =>
      match fs, hfsne with
      | f :: fs2, _ =>
        subst heq
        have hd : d.isDigit = true := hdsd d (by simp)
        have hdot : ('.' : Char).isDigit = false := by decide
        have htw : ((d :: ds2) ++ '.' :: f :: fs2).takeWhile
            (fun x => x.isDigit) = d :: ds2 := by
          rw [takeWhile_append_all hdsd]
          simp [List.takeWhile_cons, hdot]
        have hdw : ((d :: ds2) ++ '.' :: f :: fs2).dropWhile
            (fun x => x.isDigit) = '.' :: f :: fs2 := by
          rw [dropWhile_append_all hdsd]
          simp [List.dropWhile_cons, hdot]
        have h3 : decTail ('.' :: f :: fs2) = '.' :: f :: fs2 := by
          have htw2 : (f :: fs2).takeWhile (fun x => x.isDigit) = f :: fs2 :=
            takeWhile_all hfsd
          simp [decTail, htw2]
        have hcons : (d :: ds2) ++ '.' :: f :: fs2 =
            d :: (ds2 ++ '.' :: f :: fs2) := rfl
        rw [hcons] at htw hdw ⊢
        rw [matchDecimalAt_cons_digit hd, htw, hdw, h3]
        exact congrArg some hcons

theorem reSearchDecimalAux_shape {cs m : List Char}
    (h : reSearchDecimalAux cs = some m) : DecShape m := by
  induction cs with
  | nil => simp [reSearchDecimalAux] at h
  | cons c t ih =>
    by_cases hc : c.isDigit = true
    · rw [reSearchDecimalAux, if_pos hc] at h
      exact matchDecimalAt_shape h
    · rw [reSearchDecimalAux, if_neg hc] at h
      exact ih h

theorem reSearchDecimalAux_of_self {cs : List Char}
    (h : matchDecimalAt cs = some cs) : reSearchDecimalAux cs = some cs := by
  match cs with
  | [] => simp [matchDecimalAt] at h
  | c :: t =>
    by_cases hc : c.isDigit = true
    · rw [reSearchDecimalAux, if_pos hc]; exact h
    · simp [matchDecimalAt, hc] at h

theorem string_mk_data (s : String) : String.mk s.data = s := rfl

theorem decFullMatch_reSearch {s : String} (h : decFullMatch s = true) :
    reSearchDecimal s = some s := by
  have hm : matchDecimalAt s.data = some s.data := by
    simpa [decFullMatch] using h
  rw [reSearchDecimal, reSearchDecimalAux_of_self hm]
  rfl

theorem reSearch_decFullMatch {s t : String} (h : reSearchDecimal s = some t) :
    decFullMatch t = true := by
  rw [reSearchDecimal] at h
  rcases hx : reSearchDecimalAux s.data with _ | m
  · rw [hx] at h; simp at h
  · rw [hx] at h
    have hts : String.mk m = t := by simpa using h
    have hshape : DecShape m := reSearchDecimalAux_shape hx
    have hself : matchDecimalAt m = some m := matchDecimalAt_self hshape
    rw [decFullMatch, ← hts]
    simpa using hself

theorem decFullMatch_sentinel : decFullMatch "Not Found" = false := by decide

theorem reSearch_sentinel : reSearchDecimal "Not Found" = none := by decide

/-! ### Lemmas about the fetcher and the aggregator -/

theorem fetch_price_raised {net : String → HttpResult} {vpn : String}
    (hr : net (searchUrl vpn) = HttpResult.raised) :
    fetch_price net vpn = none := by
  rw [fetch_price, hr]

theorem fetch_price_response {net : String → HttpResult} {vpn : String}
    {status : Nat} {body : Node}
    (hr : net (searchUrl vpn) = HttpResult.response status body) :
    fetch_price net vpn =
      if 400 ≤ status then none
      else
        match selectNode false body with
        | none => none
        | some el => reSearchDecimal (getText el) := by
  rw [fetch_price, hr]

theorem fetch_price_decimal {net : String → HttpResult} {vpn p : String}
    (h : fetch_price net vpn = some p) : decFullMatch p = true := by
  rcases hr : net (searchUrl vpn) with _ | ⟨status, body⟩
  · rw [fetch_price_raised hr] at h; simp at h
  · rw [fetch_price_response hr] at h
    by_cases hs : 400 ≤ status
    · rw [if_pos hs] at h; simp at h
    · rw [if_neg hs] at h
      rcases hsel : selectNode false body with _ | el
      · rw [hsel] at h; simp at h
      · rw [hsel] at h
        exact reSearch_decFullMatch h

theorem fetch_price_ne_sentinel {net : String → HttpResult} {vpn p : String}
    (h : fetch_price net vpn = some p) : p ≠ "Not Found" := by
  intro hp
  have := fetch_price_decimal h
  rw [hp, decFullMatch_sentinel] at this
  exact Bool.false_ne_true this

theorem rowOf_supplier (net : String → HttpResult) (rec : PartRecord) :
    (rowOf net rec).SupplierPartNumber = rec.vendor_part_number := by
  rw [rowOf]
  rcases fetch_price net rec.vendor_part_number with _ | p <;> rfl

theorem searchLoop_spec (net : String → HttpResult) :
    ∀ (parts : List PartRecord) (st : AggState),
    searchLoop net parts st =
      { raw_results := st.raw_results ++ parts.map (rowOf net),
        multi_errors := st.multi_errors,
        not_found := st.not_found ++
          (parts.filter
            (fun r => (fetch_price net r.vendor_part_number).isNone)).map
            (fun r => r.vendor_part_number) } := by
  intro parts
  induction parts with
  | nil => intro st; simp [searchLoop]
  | cons rec rest ih =>
    intro st
    rcases h : fetch_price net rec.vendor_part_number with _ | price
    · simp only [searchLoop, h]
      rw [ih]
      simp [rowOf, h, List.filter_cons]
    · simp only [searchLoop, h]
      rw [ih]
      simp [rowOf, h, List.filter_cons]

theorem searchState_raw (net : String → HttpResult) (parts : List PartRecord) :
    (searchState net parts).raw_results = parts.map (rowOf net) := by
  rw [searchState, searchLoop_spec]
  simp

theorem searchState_multi (net : String → HttpResult)
    (parts : List PartRecord) :
    (searchState net parts).multi_errors = [] := by
  rw [searchState, searchLoop_spec]

theorem searchState_nf (net : String → HttpResult) (parts : List PartRecord) :
    (searchState net parts).not_found =
      (parts.filter
        (fun r => (fetch_price net r.vendor_part_number).isNone)).map
        (fun r => r.vendor_part_number) := by
  rw [searchState, searchLoop_spec]
  simp

theorem searchState_cost_shape {net : String → HttpResult}
    {parts : List PartRecord} {row : PriceRow}
    (h : row ∈ (searchState net parts).raw_results) :
    row.Cost = "Not Found" ∨ decFullMatch row.Cost = true := by
  rw [searchState_raw] at h
  rcases List.mem_map.mp h with ⟨rec, _, hrow⟩
  rw [← hrow, rowOf]
  rcases hf : fetch_price net rec.vendor_part_number with _ | p
  · exact Or.inl rfl
  · exact Or.inr (fetch_price_decimal hf)

theorem cleanRows_filter :
    ∀ {raw : List PriceRow},
    (∀ r ∈ raw, r.Cost = "Not Found" ∨ decFullMatch r.Cost = true) →
    cleanRows raw = raw.filter (fun r => r.Cost != "Not Found") := by
  intro raw h
  induction raw with
  | nil => rfl
  | cons r rest ih =>
    have hrest := ih (fun x hx => h x (by simp [hx]))
    rcases h r (by simp) with hc | hd
    · have hnone : reSearchDecimal r.Cost = none := by
        rw [hc]; exact reSearch_sentinel
      rw [cleanRows, hnone, List.filter_cons]
      have : (r.Cost != "Not Found") = false := by simp [hc]
      rw [this]
      simpa using hrest
    · have hsome : reSearchDecimal r.Cost = some r.Cost :=
        decFullMatch_reSearch hd
      have hne : r.Cost ≠ "Not Found" := by
        intro hp
        rw [hp, decFullMatch_sentinel] at hd
        exact Bool.false_ne_true hd
      rw [cleanRows, hsome, List.filter_cons]
      have : (r.Cost != "Not Found") = true := by simpa using hne
      rw [this]
      simp only [if_pos]
      rw [hrest]

/-! ### The claims -/

/-- C1: For every input list of PartRecords, the aggregator
(`search_part_numbers_on_rockauto`) produces exactly one PriceResult row
per PartRecord in the raw results — the raw results are precisely the
input list mapped, record by record and in input order, to its row. -/
theorem raw_results_one_per_record (net : String → HttpResult)
    (parts : List PartRecord) :
    (searchState net parts).raw_results = parts.map (rowOf net) ∧
    (searchState net parts).raw_results.length = parts.length := by
  refine ⟨searchState_raw net parts, ?_⟩
  rw [searchState_raw net parts, List.length_map]

/-- C2: A raw PriceResult row has Cost `"Not Found"` if and only if the
not-found error collection of the same run holds its vendor part number
(i.e. an ErrorEntry with reason "No results found" is recorded for it). -/
theorem sentinel_iff_not_found_entry (net : String → HttpResult)
    (parts : List PartRecord) (row : PriceRow)
    (h : row ∈ (searchState net parts).raw_results) :
    row.Cost = "Not Found" ↔
      row.SupplierPartNumber ∈ (searchState net parts).not_found := by
  rw [searchState_raw] at h
  rcases List.mem_map.mp h with ⟨rec, hrec, hrow⟩
  rw [searchState_nf]
  constructor
  · intro hc
    rcases hf : fetch_price net rec.vendor_part_number with _ | p
    · have hsup : row.SupplierPartNumber = rec.vendor_part_number := by
        rw [← hrow]; exact rowOf_supplier net rec
      rw [hsup]
      refine List.mem_map.mpr ⟨rec, List.mem_filter.mpr ⟨hrec, ?_⟩, rfl⟩
      simp [hf]
    · exfalso
      have : row.Cost = p := by rw [← hrow, rowOf, hf]
      exact fetch_price_ne_sentinel hf (by rw [← this, hc])
  · intro hm
    rcases List.mem_map.mp hm with ⟨rec2, hrec2, hvpn⟩
    have hnone2 : fetch_price net rec2.vendor_part_number = none := by
      have := (List.mem_filter.mp hrec2).2
      simpa using this
    have hsup : row.SupplierPartNumber = rec.vendor_part_number := by
      rw [← hrow]; exact rowOf_supplier net rec
    have hsame : rec.vendor_part_number = rec2.vendor_part_number := by
      rw [← hsup, hvpn]
    have hnone : fetch_price net rec.vendor_part_number = none := by
      rw [hsame]; exact hnone2
    rw [← hrow, rowOf, hnone]

/-- Witness for C2: with a network on which every GET raises and one
input record, the sentinel row is in the raw results and the equivalence
holds for it. -/
theorem sentinel_iff_not_found_entry_check :
    ("Not Found" = "Not Found" ↔
      "A1" ∈ (searchState netRaise partsOne).not_found) :=
  sentinel_iff_not_found_entry netRaise partsOne
    { SupplierPartNumber := "A1", Partnumber := "P1", Cost := "Not Found" }
    (by decide)

/-- C3: The cleaned rows are exactly the raw rows whose Cost is not the
sentinel, in order and with surviving costs unchanged; and on the spec's
example list, cleaning keeps the `"19.99"` and `"5"` rows, in order. -/
theorem cleaning_filters_sentinel (net : String → HttpResult)
    (parts : List PartRecord) :
    cleanRows (searchState net parts).raw_results =
      (searchState net parts).raw_results.filter
        (fun r => r.Cost != "Not Found") ∧
    cleanRows
      [{ SupplierPartNumber := "A1", Partnumber := "P1", Cost := "19.99" },
       { SupplierPartNumber := "A2", Partnumber := "P2", Cost := "Not Found" },
       { SupplierPartNumber := "A3", Partnumber := "P3", Cost := "5" }] =
      [{ SupplierPartNumber := "A1", Partnumber := "P1", Cost := "19.99" },
       { SupplierPartNumber := "A3", Partnumber := "P3", Cost := "5" }] := by
  constructor
  · exact cleanRows_filter (fun r hr => searchState_cost_shape hr)
  · decide

/-- C4: On the spec's example HTML the fetcher returns `"42.95"`; and in
general, on any success response the fetcher is: select the first span
under a span whose id starts with `"dprice"`, then the first decimal
match of its text, `none` when either step fails. -/
theorem fetch_price_extraction :
    fetch_price net42 "ABC" = some "42.95" ∧
    ∀ (net : String → HttpResult) (vpn : String) (status : Nat) (b : Node),
      net (searchUrl vpn) = HttpResult.response status b → status < 400 →
      fetch_price net vpn =
        (selectNode false b).bind (fun el => reSearchDecimal (getText el)) := by
  constructor
  · rfl
  · intro net vpn status b hr hs
    rw [fetch_price_response hr, if_neg (by omega)]
    rcases selectNode false b with _ | el <;> rfl

/-- Witness for C4: the general clause applied to the example network,
body and part number. -/
theorem fetch_price_extraction_check :
    fetch_price net42 "ABC" =
      (selectNode false doc42).bind (fun el => reSearchDecimal (getText el)) :=
  fetch_price_extraction.2 net42 "ABC" 200 doc42 rfl (by decide)

/-- C5: If the GET raises (network error, timeout) or returns a
non-success status (`400 ≤ status`, e.g. 500), the fetcher returns
`none` — "not found" — and, being a total function into `Option`,
propagates no exception. -/
theorem fetch_price_error_paths (net : String → HttpResult) (vpn : String)
    (status : Nat) (b : Node) :
    (net (searchUrl vpn) = HttpResult.raised → fetch_price net vpn = none) ∧
    (net (searchUrl vpn) = HttpResult.response status b → 400 ≤ status →
      fetch_price net vpn = none) := by
  constructor
  · intro hr
    exact fetch_price_raised hr
  · intro hr hs
    rw [fetch_price_response hr, if_pos hs]

/-- Witness for C5: a raising network and a 500 response both yield
`none`. -/
theorem fetch_price_error_paths_check :
    fetch_price netRaise "X" = none ∧ fetch_price net500 "X" = none :=
  ⟨(fetch_price_error_paths netRaise "X" 500
      (Node.text "Internal Server Error")).1 rfl,
   (fetch_price_error_paths net500 "X" 500
      (Node.text "Internal Server Error")).2 rfl (by decide)⟩

/-- C6 (code bug): when `cursor.execute` raises, `fetch_part_numbers`
propagates the error with the connection opened but never closed — the
source has no `try/finally`, so `conn.close()` (line 66) is unreachable
on the failure paths, contradicting the spec's "must close the
connection on every exit path". -/
theorem fetch_part_numbers_leaves_connection_open :
    (fetch_part_numbers whExecFail).connOpened = true ∧
    (fetch_part_numbers whExecFail).connClosed = false ∧
    (fetch_part_numbers whExecFail).result =
      Except.error "cursor.execute raised" :=
  ⟨rfl, rfl, rfl⟩

/-- C7: The write trace of every run starts with the four header-only
resets; and when the warehouse read fails, the run aborts with that
error and the trace is exactly those four header-only resets. -/
theorem aborted_run_writes_only_resets (o : WarehouseOracle)
    (net : String → HttpResult) :
    (∃ rest, (lambda_handler o net).2 = clear_all_csvs ++ rest) ∧
    (∀ p ∈ clear_all_csvs, p.rows = []) ∧
    (∀ e, (fetch_part_numbers o).result = Except.error e →
      lambda_handler o net = (Except.error e, clear_all_csvs)) := by
  refine ⟨?_, by decide, ?_⟩
  · rcases hres : (fetch_part_numbers o).result with e | parts
    · exact ⟨[], by rw [lambda_handler, hres]; simp⟩
    · exact ⟨search_part_numbers_on_rockauto net parts,
        by rw [lambda_handler, hres]⟩
  · intro e he
    rw [lambda_handler, he]

/-- Witness for C7: with the execute-failure oracle the whole run result
is the error paired with exactly the four resets. -/
theorem aborted_run_writes_only_resets_check :
    lambda_handler whExecFail net42 =
      (Except.error "cursor.execute raised", clear_all_csvs) :=
  (aborted_run_writes_only_resets whExecFail net42).2.2
    "cursor.execute raised" rfl

/-- The aggregator's write trace, with the multi-result branch resolved:
since `multi_errors` stays empty, its conditional write vanishes. -/
theorem search_writes_eq (net : String → HttpResult)
    (parts : List PartRecord) :
    search_part_numbers_on_rockauto net parts =
      (if (searchState net parts).not_found.isEmpty then [] else
        [save_csv_to_s3
          ((searchState net parts).not_found.map
            (fun v => [v, "No results found"]))
          not_found_log_csv ["VendorPartNumber", "Error"]]) ++
      [save_csv_to_s3 ((searchState net parts).raw_results.map priceRowCells)
        output_csv_file ["SupplierPartNumber", "Partnumber", "Cost"]] ++
      [save_csv_to_s3
        ((cleanRows (searchState net parts).raw_results).map priceRowCells)
        cleaned_csv_file ["SupplierPartNumber", "Partnumber", "Cost"]] := by
  rw [search_part_numbers_on_rockauto]
  simp [searchState_multi net parts]

/-- C8: The multiple-result error collection is always empty and the
aggregation step never writes the multi-result log key. -/
theorem multi_errors_always_empty (net : String → HttpResult)
    (parts : List PartRecord) :
    (searchState net parts).multi_errors = [] ∧
    ∀ p ∈ search_part_numbers_on_rockauto net parts,
      p.key ≠ multi_result_log_csv := by
  refine ⟨searchState_multi net parts, ?_⟩
  intro p hp
  rw [search_writes_eq] at hp
  rcases List.mem_append.mp hp with hp1 | hp3
  · rcases List.mem_append.mp hp1 with hp0 | hp2
    · by_cases hnf : (searchState net parts).not_found.isEmpty
      · rw [if_pos hnf] at hp0; simp at hp0
      · rw [if_neg hnf] at hp0
        have : p = save_csv_to_s3
            ((searchState net parts).not_found.map
              (fun v => [v, "No results found"]))
            not_found_log_csv ["VendorPartNumber", "Error"] := by
          simpa using hp0
        rw [this]
        exact (by decide : not_found_log_csv ≠ multi_result_log_csv)
    · have : p = save_csv_to_s3
          ((searchState net parts).raw_results.map priceRowCells)
          output_csv_file ["SupplierPartNumber", "Partnumber", "Cost"] := by
        simpa using hp2
      rw [this]
      exact (by decide : output_csv_file ≠ multi_result_log_csv)
  · have : p = save_csv_to_s3
        ((cleanRows (searchState net parts).raw_results).map priceRowCells)
        cleaned_csv_file ["SupplierPartNumber", "Partnumber", "Cost"] := by
      simpa using hp3
    rw [this]
    exact (by decide : cleaned_csv_file ≠ multi_result_log_csv)

/-- Witness for C8: on the one-record failing-network run, the
(written) not-found log put is in the trace and its key differs from the
multi-result log key. -/
theorem multi_errors_always_empty_check :
    (save_csv_to_s3 [["A1", "No results found"]] not_found_log_csv
      ["VendorPartNumber", "Error"]).key ≠ multi_result_log_csv :=
  (multi_errors_always_empty netRaise partsOne).2
    (save_csv_to_s3 [["A1", "No results found"]] not_found_log_csv
      ["VendorPartNumber", "Error"])
    (by decide)

/-- C9: The raw and cleaned price CSVs are written on every run; and
when every lookup returns a price, no put in the aggregation step
touches the not-found log key or the multi-result log key, so both stay
as reset. -/
theorem error_logs_only_when_nonempty (net : String → HttpResult)
    (parts : List PartRecord) :
    (∃ p ∈ search_part_numbers_on_rockauto net parts,
      p.key = output_csv_file) ∧
    (∃ p ∈ search_part_numbers_on_rockauto net parts,
      p.key = cleaned_csv_file) ∧
    ((∀ r ∈ parts, (fetch_price net r.vendor_part_number).isSome = true) →
      ∀ p ∈ search_part_numbers_on_rockauto net parts,
        p.key ≠ not_found_log_csv ∧ p.key ≠ multi_result_log_csv) := by
  refine ⟨?_, ?_, ?_⟩
  · refine ⟨save_csv_to_s3
      ((searchState net parts).raw_results.map priceRowCells)
      output_csv_file ["SupplierPartNumber", "Partnumber", "Cost"], ?_, rfl⟩
    rw [search_writes_eq]
    simp
  · refine ⟨save_csv_to_s3
      ((cleanRows (searchState net parts).raw_results).map priceRowCells)
      cleaned_csv_file ["SupplierPartNumber", "Partnumber", "Cost"], ?_, rfl⟩
    rw [search_writes_eq]
    simp
  · intro h p hp
    have hfilter : parts.filter
        (fun r => (fetch_price net r.vendor_part_number).isNone) = [] := by
      rw [List.filter_eq_nil_iff]
      intro a ha
      rcases hfp : fetch_price net a.vendor_part_number with _ | v
      · have := h a ha
        rw [hfp] at this
        simp at this
      · simp [hfp]
    have hnf : (searchState net parts).not_found = [] := by
      rw [searchState_nf, hfilter]
      rfl
    rw [search_writes_eq, hnf] at hp
    simp only [List.isEmpty_nil, if_true, List.nil_append] at hp
    rcases List.mem_append.mp hp with hp2 | hp3
    · have : p = save_csv_to_s3
          ((searchState net parts).raw_results.map priceRowCells)
          output_csv_file ["SupplierPartNumber", "Partnumber", "Cost"] := by
        simpa using hp2
      rw [this]
      exact ⟨(by decide : output_csv_file ≠ not_found_log_csv),
        (by decide : output_csv_file ≠ multi_result_log_csv)⟩
    · have : p = save_csv_to_s3
          ((cleanRows (searchState net parts).raw_results).map priceRowCells)
          cleaned_csv_file ["SupplierPartNumber", "Partnumber", "Cost"] := by
        simpa using hp3
      rw [this]
      exact ⟨(by decide : cleaned_csv_file ≠ not_found_log_csv),
        (by decide : cleaned_csv_file ≠ multi_result_log_csv)⟩

/-- Witness for C9: on the one-record all-success run, the raw-price put
is in the trace and touches neither error-log key. -/
theorem error_logs_only_when_nonempty_check :
    (save_csv_to_s3 [["A1", "P1", "42.95"]] output_csv_file
      ["SupplierPartNumber", "Partnumber", "Cost"]).key ≠ not_found_log_csv ∧
    (save_csv_to_s3 [["A1", "P1", "42.95"]] output_csv_file
      ["SupplierPartNumber", "Partnumber", "Cost"]).key ≠ multi_result_log_csv :=
  (error_logs_only_when_nonempty net42 partsOne).2.2 (by decide)
    (save_csv_to_s3 [["A1", "P1", "42.95"]] output_csv_file
      ["SupplierPartNumber", "Partnumber", "Cost"])
    (by decide)

/-- C10: Every raw Cost is the sentinel or a full decimal match, and the
cleaning regex succeeds on a raw row exactly when its Cost is not the
sentinel. -/
theorem raw_costs_decimal_or_sentinel (net : String → HttpResult)
    (parts : List PartRecord) (row : PriceRow)
    (h : row ∈ (searchState net parts).raw_results) :
    (row.Cost = "Not Found" ∨ decFullMatch row.Cost = true) ∧
    ((reSearchDecimal row.Cost).isSome = true ↔ row.Cost ≠ "Not Found") := by
  have hshape := searchState_cost_shape h
  refine ⟨hshape, ?_⟩
  rcases hshape with hc | hd
  · rw [hc, reSearch_sentinel]
    simp
  · have hne : row.Cost ≠ "Not Found" := by
      intro hp
      rw [hp, decFullMatch_sentinel] at hd
      exact Bool.false_ne_true hd
    rw [decFullMatch_reSearch hd]
    simp [hne]

/-- Witness for C10: on the one-record all-success run, the priced row
is in the raw results and satisfies both parts. -/
theorem raw_costs_decimal_or_sentinel_check :
    (("42.95" : String) = "Not Found" ∨ decFullMatch "42.95" = true) ∧
    ((reSearchDecimal "42.95").isSome = true ↔
      ("42.95" : String) ≠ "Not Found") :=
  raw_costs_decimal_or_sentinel net42 partsOne
    { SupplierPartNumber := "A1", Partnumber := "P1", Cost := "42.95" }
    (by decide)
